import Mathlib

set_option maxHeartbeats 1000000

/- Shallow embedding of the deployment orchestration engine of
   Kazuha787/Huddle-Deploy-Bot (src/deploy.js).

   External effects (the solc compiler, the JSON-RPC chain, timers, ambient
   randomness) are modelled as oracles passed in explicitly; every function
   additionally returns the ordered list of observable effects it performed,
   so that properties about call counts, pacing and error isolation can be
   stated over those traces. -/

/-- A signing wallet (deploy.js line 16, `new ethers.Wallet(key, provider)`):
only its address is observable to the deployment logic. -/
structure Wallet where
  address : String
deriving DecidableEq, Repr

/-- A (name, symbol) pair as produced by the name generator and consumed by
`deployToken` (deploy.js line 180). -/
structure TokenSpec where
  name : String
  symbol : String
deriving DecidableEq, Repr

/-- The part of the solc output that `compileContract` extracts: the abi and
bytecode fields of the Token contract entry (deploy.js lines 111-113). -/
structure SolcOutput where
  abi : String
  bytecode : String
deriving DecidableEq, Repr

/-- The artifact `compileContract` returns (deploy.js line 113). -/
structure Artifact where
  abi : String
  bytecode : String
deriving DecidableEq, Repr

/-- Process-wide inputs that deploy.js reads at module load time: the black-box
external compiler `solc.compile` (modelled as a function, determinism of the
compiler being the assumption the spec itself makes) and the contract source
text read from token.sol (line 18). -/
structure Config where
  solcCompile : String → SolcOutput
  tokenSource : String

/-- Observable effects, in program order: the external-compiler invocation,
chain interactions, and timer sleeps of `wait(ms)`. -/
inductive Act where
  | compile : Act
  | balanceQuery : String → Act
  | submitDeploy : String → String → Nat → Act
  | confirmWait : Act
  | transferCall : String → Nat → Act
  | txConfirm : Act
  | wait : Nat → Act
deriving DecidableEq, Repr

/-- Recognizes the external-compiler invocation act. -/
def Act.isCompile : Act → Bool
  | .compile => true
  | _ => false

/-- Chain interactions: everything except local compilation and timer sleeps. -/
def Act.isChain : Act → Bool
  | .compile => false
  | .wait _ => false
  | _ => true

/-- Chain submissions: acts that put a transaction on chain (contract creation
or a state-mutating call), as opposed to read-only queries. -/
def Act.isSubmission : Act → Bool
  | .submitDeploy _ _ _ => true
  | .transferCall _ _ => true
  | _ => false

/-- Recognizes a token-transfer call act. -/
def Act.isTransferCall : Act → Bool
  | .transferCall _ _ => true
  | _ => false

/-- ethers.parseUnits applied to the value 1000 at 18 decimals
(deploy.js line 120). -/
def initialSupplyWei : Nat := 1000 * 10 ^ 18

/-- ethers.parseEther applied to the decimal string 0.000001, that is
0.000001 * 10^18 = 10^12 wei (deploy.js line 124). -/
def minDeployBalanceWei : Nat := 10 ^ 12

/-- deploy.js lines 103-114: builds the standard-JSON input from the source
text, invokes the external compiler and projects out the Token contract's abi
and bytecode. There is no cache anywhere in the function or around it: every
call invokes the compiler again. -/
def compileContract (cfg : Config) : Artifact :=
  { abi := (cfg.solcCompile cfg.tokenSource).abi,
    bytecode := (cfg.solcCompile cfg.tokenSource).bytecode }

/-- Oracle for the chain's behaviour during one `deployToken` call: the result
of provider.getBalance, whether factory.deploy and waitForDeployment succeed,
their error messages otherwise, and the address the contract lands at. -/
structure ChainEnv where
  balance : Nat
  deploySucceeds : Bool
  deployErrMsg : String
  confirmSucceeds : Bool
  confirmErrMsg : String
  deployedAddress : String
deriving DecidableEq, Repr

/-- The failures `deployToken` can raise, one per throw site:
line 125 (balance too low), line 134 (deploy error),
line 143 (waitForDeployment error). -/
inductive DeployError where
  | insufficientFunds : DeployError
  | deployFailed : String → DeployError
  | confirmFailed : String → DeployError
deriving DecidableEq, Repr

/-- The value `deployToken` returns on success: a contract handle bound to the
deploying wallet (deploy.js line 149). -/
structure DeployedContract where
  address : String
  abi : String
  wallet : Wallet
deriving DecidableEq, Repr

/-- deploy.js lines 117-150. Compiles unconditionally (line 118), queries the
balance (line 122), rejects balances below `minDeployBalanceWei` before any
submission (lines 124-126), then submits the creation transaction with
constructor arguments (name, symbol, initialSupply) and waits for
confirmation. Returns the result paired with the trace of performed acts. -/
def deployToken (cfg : Config) (env : ChainEnv) (w : Wallet) (name symbol : String) :
    Except DeployError DeployedContract × List Act :=
  if env.balance < minDeployBalanceWei then
    (.error .insufficientFunds, [.compile, .balanceQuery w.address])
  else if env.deploySucceeds then
    if env.confirmSucceeds then
      (.ok { address := env.deployedAddress, abi := (compileContract cfg).abi, wallet := w },
        [.compile, .balanceQuery w.address,
          .submitDeploy name symbol initialSupplyWei, .confirmWait])
    else
      (.error (.confirmFailed env.confirmErrMsg),
        [.compile, .balanceQuery w.address,
          .submitDeploy name symbol initialSupplyWei, .confirmWait])
  else
    (.error (.deployFailed env.deployErrMsg),
      [.compile, .balanceQuery w.address,
        .submitDeploy name symbol initialSupplyWei])

/-- Shared concrete fixture: a compiler stub and source text. -/
def cfgW : Config :=
  { solcCompile := fun _ => { abi := "tokenAbi", bytecode := "6080" },
    tokenSource := "token source" }

/-- Shared concrete fixture: a wallet. -/
def walletW : Wallet := { address := "0xWALLET1" }

/-- Shared concrete fixture: a chain whose wallet has zero balance. -/
def envPoor : ChainEnv :=
  { balance := 0, deploySucceeds := false, deployErrMsg := "",
    confirmSucceeds := false, confirmErrMsg := "", deployedAddress := "" }

/-- Shared concrete fixture: a funded chain on which deployment succeeds. -/
def envRich : ChainEnv :=
  { balance := 10 ^ 15, deploySucceeds := true, deployErrMsg := "",
    confirmSucceeds := true, confirmErrMsg := "", deployedAddress := "0xDEAD01" }

/-- Every single `deployToken` call performs exactly one external
compilation. -/
theorem deployToken_one_compile (cfg : Config) (env : ChainEnv) (w : Wallet)
    (name symbol : String) :
    ((deployToken cfg env w name symbol).snd).countP Act.isCompile = 1 := by
  unfold deployToken
  by_cases hb : env.balance < minDeployBalanceWei
  · simp [hb, List.countP_cons, Act.isCompile]
  · cases hd : env.deploySucceeds <;> cases hc : env.confirmSucceeds <;>
      simp [hb, hd, hc, List.countP_cons, Act.isCompile]

/-- Claim C1, counterexample: the contract-compilation step is not memoized.
In a concrete run with two deployments the external compiler is invoked
twice, refuting that it is invoked at most once in total per pair of
deployments. -/
theorem compile_not_memoized_counterexample :
    ((deployToken cfgW envRich walletW "alpha" "ALP").snd ++
        (deployToken cfgW envRich walletW "beta" "BET").snd).countP Act.isCompile = 2 ∧
    ¬ (((deployToken cfgW envRich walletW "alpha" "ALP").snd ++
        (deployToken cfgW envRich walletW "beta" "BET").snd).countP Act.isCompile ≤ 1) := by
  constructor
  · decide
  · decide

/-- Claim C1, amended: compilation is not memoized — every `deployToken` call
performs exactly one fresh external compilation, so every pair of deployments
in one process run invokes the external compiler exactly twice; a second
compilation is always performed rather than a cached artifact returned. -/
theorem compile_runs_once_per_deploy (cfg : Config) (env1 env2 : ChainEnv)
    (w1 w2 : Wallet) (n1 s1 n2 s2 : String) :
    ((deployToken cfg env1 w1 n1 s1).snd ++
        (deployToken cfg env2 w2 n2 s2).snd).countP Act.isCompile = 2 := by
  rw [List.countP_append, deployToken_one_compile, deployToken_one_compile]

/-- Claim C3: when the queried balance is below the minimum threshold,
`deployToken` fails with the insufficient-funds error before submitting
anything — it performs zero chain-submission calls and its only chain
interaction is the read-only balance query. -/
theorem deployToken_lowBalance_noSubmission (cfg : Config) (env : ChainEnv)
    (w : Wallet) (name symbol : String) (h : env.balance < minDeployBalanceWei) :
    (deployToken cfg env w name symbol).fst = .error .insufficientFunds ∧
    ((deployToken cfg env w name symbol).snd).filter Act.isChain =
      [.balanceQuery w.address] ∧
    ((deployToken cfg env w name symbol).snd).countP Act.isSubmission = 0 := by
  unfold deployToken
  rw [if_pos h]
  refine ⟨rfl, ?_, ?_⟩ <;> rfl

/-- Concrete instance of claim C3's theorem at a zero-balance wallet. -/
theorem deployToken_lowBalance_noSubmission_witness :
    (deployToken cfgW envPoor walletW "alpha" "ALP").fst = .error .insufficientFunds ∧
    ((deployToken cfgW envPoor walletW "alpha" "ALP").snd).filter Act.isChain =
      [.balanceQuery walletW.address] ∧
    ((deployToken cfgW envPoor walletW "alpha" "ALP").snd).countP Act.isSubmission = 0 :=
  deployToken_lowBalance_noSubmission cfgW envPoor walletW "alpha" "ALP" (by decide)

/-- Claim C10: the fixed minimum-balance threshold is exactly 10^12 wei
(0.000001 ether): `deployToken` submits the contract-creation transaction
if and only if the queried balance is at least 10^12 wei. -/
theorem deployToken_submits_iff_balance_ge (cfg : Config) (env : ChainEnv)
    (w : Wallet) (name symbol : String) :
    (Act.submitDeploy name symbol initialSupplyWei ∈
        (deployToken cfg env w name symbol).snd) ↔ 10 ^ 12 ≤ env.balance := by
  have hdef : (10 : Nat) ^ 12 = minDeployBalanceWei := rfl
  rw [hdef]
  unfold deployToken
  by_cases hb : env.balance < minDeployBalanceWei
  · rw [if_pos hb]
    constructor
    · intro hm
      simp [List.mem_cons] at hm
    · intro hle
      exact absurd hle (not_le.mpr hb)
  · have hle : minDeployBalanceWei ≤ env.balance := Nat.le_of_not_lt hb
    rw [if_neg hb]
    cases hd : env.deploySucceeds <;> cases hc : env.confirmSucceeds <;>
      simp [hd, hc, hle, List.mem_cons]

/-- Outcome of one transfer attempt inside `sendToRandomAddresses`: the target
recipient, the transferred amount in base units, and whether the transfer and
its confirmation succeeded — on failure the error is logged and the loop
continues with the next recipient (deploy.js lines 157-163). -/
structure TransferOutcome where
  recipient : String
  amountWei : Nat
  ok : Bool
deriving DecidableEq, Repr

/-- The body of the for-loop of `sendToRandomAddresses` (deploy.js lines
155-164), indexed so that the i-th iteration draws the random value `draw i`
(modelling Math.floor(Math.random() * 50), hence taken mod 50) and its
transfer attempt succeeds exactly when `txOk i`. The transferred amount is
parseUnits of (draw + 1) at 18 decimals. -/
def distLoop (draw : Nat → Nat) (txOk : Nat → Bool) :
    Nat → List String → List TransferOutcome × List Act
  | _, [] => ([], [])
  | i, t :: ts =>
    let amt := (draw i % 50 + 1) * 10 ^ 18
    let rest := distLoop draw txOk (i + 1) ts
    if txOk i then
      ({ recipient := t, amountWei := amt, ok := true } :: rest.fst,
        .transferCall t amt :: .txConfirm :: rest.snd)
    else
      ({ recipient := t, amountWei := amt, ok := false } :: rest.fst,
        .transferCall t amt :: rest.snd)

/-- deploy.js lines 153-165: shuffles the global address pool — sorting with a
random comparator, which yields some permutation of the pool, supplied here as
the oracle `shuffled` — takes the first 7 entries, and attempts one transfer
per target, isolating per-target failures. -/
def sendToRandomAddresses (shuffled : List String) (draw : Nat → Nat)
    (txOk : Nat → Bool) : List TransferOutcome × List Act :=
  distLoop draw txOk 0 (shuffled.take 7)

/-- The recipients of the loop's outcomes are exactly the target list, in
order. -/
theorem distLoop_map_recipient (draw : Nat → Nat) (txOk : Nat → Bool) :
    ∀ (ts : List String) (i : Nat),
      ((distLoop draw txOk i ts).fst.map TransferOutcome.recipient) = ts
  | [], _ => rfl
  | t :: ts, i => by
    cases h : txOk i <;>
      simp [distLoop, h, distLoop_map_recipient draw txOk ts (i + 1)]

/-- The success flags of the loop's outcomes are exactly the per-index
transfer results, in order. -/
theorem distLoop_map_ok (draw : Nat → Nat) (txOk : Nat → Bool) :
    ∀ (ts : List String) (i : Nat),
      ((distLoop draw txOk i ts).fst.map TransferOutcome.ok) =
        (List.range ts.length).map (fun k => txOk (i + k))
  | [], _ => rfl
  | t :: ts, i => by
    have ih := distLoop_map_ok draw txOk ts (i + 1)
    have hr : (List.range (ts.length + 1)).map (fun k => txOk (i + k)) =
        txOk i :: (List.range ts.length).map (fun k => txOk (i + 1 + k)) := by
      rw [List.range_succ_eq_map]
      simp only [List.map_cons, List.map_map, Nat.add_zero]
      refine congrArg (txOk i :: ·) ?_
      refine List.map_congr_left ?_
      intro k _
      simp only [Function.comp_apply]
      exact congrArg txOk (by omega)
    cases h : txOk i <;> simp [distLoop, h, ih, hr]

/-- Exactly one transfer call is issued per target. -/
theorem distLoop_countP_transfer (draw : Nat → Nat) (txOk : Nat → Bool) :
    ∀ (ts : List String) (i : Nat),
      ((distLoop draw txOk i ts).snd).countP Act.isTransferCall = ts.length
  | [], _ => rfl
  | t :: ts, i => by
    cases h : txOk i <;>
      simp [distLoop, h, List.countP_cons, Act.isTransferCall,
        distLoop_countP_transfer draw txOk ts (i + 1)]

/-- Claim C6: the distribution step samples without replacement — it attempts
exactly min 7 (pool size) transfers (7 being the fixed policy sample size),
issues exactly that many transfer calls, all targets are pairwise distinct
members of the recipient pool, and with a pool of size at least 7 exactly 7
transfer calls are issued. -/
theorem sendToRandomAddresses_sample (pool shuffled : List String)
    (draw : Nat → Nat) (txOk : Nat → Bool)
    (hnd : pool.Nodup) (hperm : List.Perm shuffled pool) :
    (sendToRandomAddresses shuffled draw txOk).fst.length = min 7 pool.length ∧
    ((sendToRandomAddresses shuffled draw txOk).snd).countP Act.isTransferCall =
      min 7 pool.length ∧
    ((sendToRandomAddresses shuffled draw txOk).fst.map TransferOutcome.recipient).Nodup ∧
    (∀ o ∈ (sendToRandomAddresses shuffled draw txOk).fst, o.recipient ∈ pool) ∧
    (7 ≤ pool.length → (sendToRandomAddresses shuffled draw txOk).fst.length = 7) := by
  have hmap : (sendToRandomAddresses shuffled draw txOk).fst.map TransferOutcome.recipient =
      shuffled.take 7 := distLoop_map_recipient draw txOk (shuffled.take 7) 0
  have hlenpool : shuffled.length = pool.length := hperm.length_eq
  have hlen : (sendToRandomAddresses shuffled draw txOk).fst.length = min 7 pool.length := by
    have := congrArg List.length hmap
    rw [List.length_map, List.length_take, hlenpool] at this
    exact this
  refine ⟨hlen, ?_, ?_, ?_, ?_⟩
  · rw [sendToRandomAddresses, distLoop_countP_transfer, List.length_take, hlenpool]
  · rw [hmap]
    exact List.Nodup.sublist (List.take_sublist 7 shuffled) (hperm.nodup_iff.mpr hnd)
  · intro o ho
    have : o.recipient ∈ shuffled.take 7 := by
      rw [← hmap]
      exact List.mem_map_of_mem TransferOutcome.recipient ho
    exact hperm.subset (List.mem_of_mem_take this)
  · intro h7
    rw [hlen]
    omega

/-- Shared concrete fixture: a pool of ten pairwise-distinct recipient
addresses. -/
def poolW : List String :=
  ["a0", "a1", "a2", "a3", "a4", "a5", "a6", "a7", "a8", "a9"]

/-- Concrete instance of claim C6's theorem on a ten-address pool. -/
theorem sendToRandomAddresses_sample_witness :
    (sendToRandomAddresses poolW (fun _ => 3) (fun _ => true)).fst.length =
      min 7 poolW.length ∧
    ((sendToRandomAddresses poolW (fun _ => 3) (fun _ => true)).snd).countP
        Act.isTransferCall = min 7 poolW.length ∧
    ((sendToRandomAddresses poolW (fun _ => 3) (fun _ => true)).fst.map
        TransferOutcome.recipient).Nodup ∧
    (∀ o ∈ (sendToRandomAddresses poolW (fun _ => 3) (fun _ => true)).fst,
        o.recipient ∈ poolW) ∧
    (7 ≤ poolW.length →
        (sendToRandomAddresses poolW (fun _ => 3) (fun _ => true)).fst.length = 7) :=
  sendToRandomAddresses_sample poolW poolW (fun _ => 3) (fun _ => true)
    (by decide) (List.Perm.refl poolW)

/-- Claim C7: per-recipient failure isolation — every sampled recipient is
attempted exactly once, in sample order, the i-th outcome records exactly the
i-th transfer's success or failure, and the full per-recipient outcome
sequence is returned for every failure pattern (a failed transfer never cuts
the sample short). -/
theorem sendToRandomAddresses_isolation (shuffled : List String)
    (draw : Nat → Nat) (txOk : Nat → Bool) :
    (sendToRandomAddresses shuffled draw txOk).fst.map TransferOutcome.recipient =
      shuffled.take 7 ∧
    (sendToRandomAddresses shuffled draw txOk).fst.map TransferOutcome.ok =
      (List.range (shuffled.take 7).length).map txOk := by
  constructor
  · exact distLoop_map_recipient draw txOk (shuffled.take 7) 0
  · rw [sendToRandomAddresses, distLoop_map_ok]
    exact List.map_congr_left (fun k _ => by rw [Nat.zero_add])

/-- The failure of the name generator: the spec's GenerationExhausted. -/
inductive GenError where
  | generationExhausted : GenError
deriving DecidableEq, Repr

/-- Modelled from the spec: the redraw loop of the name generator. It consumes
a stream of drawn (name, symbol) pairs; a draw whose symbol collides with one
already accepted into the batch is discarded and redrawn; the batch is done
when `need` reaches zero; exhausting the draw stream (the retry budget) first
fails with GenerationExhausted. -/
def genGo : List TokenSpec → Nat → List TokenSpec → Except GenError (List TokenSpec)
  | _, 0, acc => .ok acc.reverse
  | [], _ + 1, _ => .error .generationExhausted
  | d :: ds, need + 1, acc =>
    if d.symbol ∈ acc.map TokenSpec.symbol then genGo ds (need + 1) acc
    else genGo ds need (d :: acc)

/-- Modelled from the spec: `generateUniqueNames(count)` is implemented in
utils/randomName.js, which is not among the provided sources — deploy.js only
imports it (line 7) and calls it (line 176). Per the spec it draws from a
bounded vocabulary of name and symbol fragments, redraws on a symbol collision
within the batch until distinct, and fails with GenerationExhausted once a
retry budget is exhausted. The ambient randomness is the draw stream, whose
length plays the role of the retry budget. -/
def generateUniqueNames (draws : List TokenSpec) (count : Nat) :
    Except GenError (List TokenSpec) :=
  genGo draws count []

/-- Per-slot oracles: the chain's behaviour for the slot's deployToken call
and the shuffle, amount draws and transfer results for its distribution. -/
structure SlotEnv where
  chain : ChainEnv
  shuffled : List String
  draw : Nat → Nat
  txOk : Nat → Bool

/-- Per-wallet oracles: the wallet, the name generator's draw stream for its
batch, and the per-slot environments. -/
structure WalletEnv where
  wallet : Wallet
  draws : List TokenSpec
  slots : Nat → SlotEnv

/-- The recorded outcome of one deployment slot: its spec, the deployment
result, and — when the deployment succeeded — the distribution outcomes. -/
structure SlotOutcome where
  spec : TokenSpec
  deployed : Except DeployError DeployedContract
  distribute : Option (List TransferOutcome)

/-- One iteration of the inner for-loop of mainLoop (deploy.js lines 179-189):
try deployToken and, on success, sendToRandomAddresses; any failure is caught
and logged at this iteration; then wait 3000 ms regardless of outcome. -/
def runSlot (cfg : Config) (w : Wallet) (se : SlotEnv) (spec : TokenSpec) :
    SlotOutcome × List Act :=
  match deployToken cfg se.chain w spec.name spec.symbol with
  | (.error e, dacts) =>
    ({ spec := spec, deployed := .error e, distribute := none },
      dacts ++ [.wait 3000])
  | (.ok c, dacts) =>
    let r := sendToRandomAddresses se.shuffled se.draw se.txOk
    ({ spec := spec, deployed := .ok c, distribute := some r.fst },
      dacts ++ r.snd ++ [.wait 3000])

/-- The inner for-loop of mainLoop over the generated specs of one wallet
(deploy.js lines 179-189), indexed by slot position. -/
def runSlots (cfg : Config) (w : Wallet) (se : Nat → SlotEnv) :
    Nat → List TokenSpec → List SlotOutcome × List Act
  | _, [] => ([], [])
  | i, spec :: rest =>
    let s := runSlot cfg w (se i) spec
    let r := runSlots cfg w se (i + 1) rest
    (s.fst :: r.fst, s.snd ++ r.snd)

/-- One cycle of mainLoop's outer while-true body over the wallet list
(deploy.js lines 174-190): for each wallet, generateUniqueNames(5) — note the
call sits outside any try/catch — then the per-spec loop. An exception thrown
by name generation aborts the cycle; the trace accumulated so far is kept. -/
def runCycle (cfg : Config) : List WalletEnv → Except GenError (List SlotOutcome) × List Act
  | [] => (.ok [], [])
  | we :: rest =>
    match generateUniqueNames we.draws 5 with
    | .error e => (.error e, [])
    | .ok names =>
      let r := runSlots cfg we.wallet we.slots 0 names
      match runCycle cfg rest with
      | (.error e, as2) => (.error e, r.snd ++ as2)
      | (.ok os2, as2) => (.ok (r.fst ++ os2), r.snd ++ as2)

/-- How one cycle ends at the process level. -/
inductive ProcessOutcome where
  | exitedWithCode : Nat → ProcessOutcome
  | cycleCompleted : List SlotOutcome → ProcessOutcome

/-- deploy.js lines 208-211: mainLoop().catch logs the fatal error and calls
process.exit(1) — any exception escaping the cycle terminates the process. -/
def runProcessCycle (cfg : Config) (ws : List WalletEnv) : ProcessOutcome :=
  match (runCycle cfg ws).fst with
  | .error _ => .exitedWithCode 1
  | .ok os => .cycleCompleted os

/-- Boolean test for an Except failure. -/
def exceptFailed {ε α : Type} : Except ε α → Bool
  | .error _ => true
  | .ok _ => false

/-- Boolean test for an Except success. -/
def exceptSucceeded {ε α : Type} : Except ε α → Bool
  | .error _ => false
  | .ok _ => true

/-- Shared concrete fixture: a slot environment over the zero-balance chain. -/
def slotW : SlotEnv :=
  { chain := envPoor, shuffled := [], draw := fun _ => 0, txOk := fun _ => false }

/-- Shared concrete fixture: a wallet environment whose draw stream repeats
one symbol, so that a 5-name batch exhausts it. -/
def walletEnvBad : WalletEnv :=
  { wallet := walletW,
    draws := [⟨"alpha", "TKN"⟩, ⟨"beta", "TKN"⟩, ⟨"gamma", "TKN"⟩],
    slots := fun _ => slotW }

/-- Shared concrete fixture: a wallet environment with five distinct-symbol
draws, so name generation succeeds. -/
def walletEnvOk : WalletEnv :=
  { wallet := walletW,
    draws := [⟨"n1", "S1"⟩, ⟨"n2", "S2"⟩, ⟨"n3", "S3"⟩, ⟨"n4", "S4"⟩, ⟨"n5", "S5"⟩],
    slots := fun _ => slotW }

/-- Claim C2, counterexample: a run in which one wallet's name generation
exhausts its draws does terminate the process — the GenerationExhausted
failure escapes the cycle (generateUniqueNames is called outside any
try/catch) and the top-level catch exits with code 1. -/
theorem generation_failure_kills_process_counterexample :
    generateUniqueNames walletEnvBad.draws 5 = .error .generationExhausted ∧
    runProcessCycle cfgW [walletEnvBad] = .exitedWithCode 1 :=
  ⟨rfl, rfl⟩

/-- Claim C2, amended: a GenerationExhausted failure while generating a batch
is not isolated to that batch — it propagates out of the cycle and terminates
the whole process with exit code 1 via the top-level catch handler. -/
theorem generation_failure_exits_process (cfg : Config) (ws : List WalletEnv)
    (h : ∃ we ∈ ws, exceptFailed (generateUniqueNames we.draws 5) = true) :
    runProcessCycle cfg ws = .exitedWithCode 1 := by
  induction ws with
  | nil => simp at h
  | cons we rest ih =>
    rcases h with ⟨we2, hmem, herr⟩
    cases hg : generateUniqueNames we.draws 5 with
    | error e => simp [runProcessCycle, runCycle, hg]
    | ok names =>
      rcases List.mem_cons.mp hmem with heq | hmem2
      · subst heq
        rw [hg] at herr
        simp [exceptFailed] at herr
      · have hr : runProcessCycle cfg rest = .exitedWithCode 1 :=
          ih ⟨we2, hmem2, herr⟩
        cases hrc : runCycle cfg rest with
        | mk f a =>
          cases f with
          | ok os =>
            rw [runProcessCycle, hrc] at hr
            simp at hr
          | error e =>
            simp [runProcessCycle, runCycle, hg, hrc]

/-- Concrete instance of claim C2's amended theorem. -/
theorem generation_failure_exits_process_witness :
    runProcessCycle cfgW [walletEnvBad] = .exitedWithCode 1 :=
  generation_failure_exits_process cfgW [walletEnvBad]
    ⟨walletEnvBad, by simp, by decide⟩

/-- When the redraw loop succeeds, the batch it returns has exactly the
requested number of specs on top of the accumulator. -/
theorem genGo_ok_length (ds : List TokenSpec) :
    ∀ (need : Nat) (acc l : List TokenSpec),
      genGo ds need acc = .ok l → l.length = need + acc.length := by
  induction ds with
  | nil =>
    intro need acc l h
    cases need with
    | zero =>
      simp [genGo] at h
      subst h
      simp
    | succ n => simp [genGo] at h
  | cons d ds ih =>
    intro need acc l h
    cases need with
    | zero =>
      simp [genGo] at h
      subst h
      simp
    | succ n =>
      rw [genGo] at h
      by_cases hc : d.symbol ∈ acc.map TokenSpec.symbol
      · rw [if_pos hc] at h
        exact ih (n + 1) acc l h
      · rw [if_neg hc] at h
        have := ih n (d :: acc) l h
        simp only [List.length_cons] at this
        omega

/-- A successful generateUniqueNames call returns exactly `count` specs. -/
theorem generateUniqueNames_ok_length (draws : List TokenSpec) (count : Nat)
    (names : List TokenSpec) (h : generateUniqueNames draws count = .ok names) :
    names.length = count := by
  have := genGo_ok_length draws count [] names h
  simpa using this

/-- The slot loop records exactly one outcome per generated spec, whatever the
per-slot environments do. -/
theorem runSlots_length (cfg : Config) (w : Wallet) (se : Nat → SlotEnv) :
    ∀ (i : Nat) (specs : List TokenSpec),
      (runSlots cfg w se i specs).fst.length = specs.length := by
  intro i specs
  induction specs generalizing i with
  | nil => rfl
  | cons spec rest ih => simp [runSlots, ih]

/-- Claim C4: per-slot error isolation — whenever name generation succeeds for
every wallet, the cycle completes normally (so the scheduler loop continues)
and records exactly one outcome for each of the 5 slots of every wallet, for
every pattern of deployOne and distribute failures in the slot
environments. -/
theorem runCycle_isolates_slot_failures (cfg : Config) (ws : List WalletEnv)
    (h : ∀ we ∈ ws, ∃ names, generateUniqueNames we.draws 5 = .ok names) :
    ∃ outs, (runCycle cfg ws).fst = .ok outs ∧ outs.length = 5 * ws.length := by
  induction ws with
  | nil => exact ⟨[], rfl, rfl⟩
  | cons we rest ih =>
    rcases h we (List.mem_cons_self we rest) with ⟨names, hg⟩
    rcases ih (fun we2 hm => h we2 (List.mem_cons_of_mem we hm)) with ⟨outs2, h2, hlen2⟩
    cases hrc : runCycle cfg rest with
    | mk f a =>
      rw [hrc] at h2
      simp only at h2
      subst h2
      refine ⟨(runSlots cfg we.wallet we.slots 0 names).fst ++ outs2, ?_, ?_⟩
      · simp [runCycle, hg, hrc]
      · rw [List.length_append, runSlots_length,
          generateUniqueNames_ok_length we.draws 5 names hg, hlen2]
        simp [List.length_cons]
        ring

/-- Concrete instance of claim C4's theorem: one wallet, five slots, every
deployment failing, still five recorded outcomes. -/
theorem runCycle_isolates_slot_failures_witness :
    ∃ outs, (runCycle cfgW [walletEnvOk]).fst = .ok outs ∧
      outs.length = 5 * [walletEnvOk].length :=
  runCycle_isolates_slot_failures cfgW [walletEnvOk]
    (fun we hm => by
      rw [List.mem_singleton] at hm
      subst hm
      exact ⟨_, rfl⟩)

/-- Claim C5: for every deployment slot, the distribution step runs if and
only if that slot's deployment succeeded. -/
theorem runSlot_distribute_iff_deploy (cfg : Config) (w : Wallet) (se : SlotEnv)
    (spec : TokenSpec) :
    ((runSlot cfg w se spec).fst.distribute).isSome =
      exceptSucceeded (deployToken cfg se.chain w spec.name spec.symbol).fst := by
  cases hd : deployToken cfg se.chain w spec.name spec.symbol with
  | mk f dacts =>
    cases f with
    | error e => simp [runSlot, hd, exceptSucceeded]
    | ok c => simp [runSlot, hd, exceptSucceeded]


/-- Pacing checker: scanning an act trace left to right, the flag records that
a deployment attempt has begun (its compile act was seen) without a 3000 ms
pacing wait having occurred since; seeing another compile while the flag is
set means two consecutive attempts without a pacing delay between them. -/
def pacedFrom : Bool → List Act → Bool
  | _, [] => true
  | b, a :: rest =>
    if a = Act.compile then !b && pacedFrom true rest
    else if a = Act.wait 3000 then pacedFrom false rest
    else pacedFrom b rest

/-- Unfolding lemma for the checker on a cons cell. -/
theorem pacedFrom_cons (b : Bool) (a : Act) (rest : List Act) :
    pacedFrom b (a :: rest) =
      if a = Act.compile then !b && pacedFrom true rest
      else if a = Act.wait 3000 then pacedFrom false rest
      else pacedFrom b rest := rfl

/-- The checker steps over a compile act by raising the flag. -/
theorem pacedFrom_compile (b : Bool) (rest : List Act) :
    pacedFrom b (Act.compile :: rest) = (!b && pacedFrom true rest) := by
  rw [pacedFrom_cons, if_pos rfl]

/-- The checker steps over the pacing wait by clearing the flag. -/
theorem pacedFrom_wait3000 (b : Bool) (rest : List Act) :
    pacedFrom b (Act.wait 3000 :: rest) = pacedFrom false rest := by
  rw [pacedFrom_cons, if_neg (by simp), if_pos rfl]

/-- Any other act leaves the checker's state unchanged. -/
theorem pacedFrom_other (b : Bool) (a : Act) (rest : List Act)
    (h1 : a ≠ Act.compile) (h2 : a ≠ Act.wait 3000) :
    pacedFrom b (a :: rest) = pacedFrom b rest := by
  rw [pacedFrom_cons, if_neg h1, if_neg h2]

/-- Acts that are neither a compile nor the 3000 ms pacing wait do not change
the checker's verdict. -/
theorem pacedFrom_append_clean :
    ∀ (l : List Act), (∀ a ∈ l, a ≠ Act.compile ∧ a ≠ Act.wait 3000) →
      ∀ (b : Bool) (rest : List Act), pacedFrom b (l ++ rest) = pacedFrom b rest
  | [], _, _, _ => rfl
  | a :: l, h, b, rest => by
    have ha := h a (List.mem_cons_self a l)
    rw [List.cons_append, pacedFrom_other b a _ ha.1 ha.2]
    exact pacedFrom_append_clean l (fun x hx => h x (List.mem_cons_of_mem a hx)) b rest

/-- Every deployToken trace starts with its compile act and contains no
further compile and no pacing wait. -/
theorem deployToken_acts_shape (cfg : Config) (env : ChainEnv) (w : Wallet)
    (name symbol : String) :
    ∃ dtail, (deployToken cfg env w name symbol).snd = Act.compile :: dtail ∧
      ∀ a ∈ dtail, a ≠ Act.compile ∧ a ≠ Act.wait 3000 := by
  unfold deployToken
  by_cases hb : env.balance < minDeployBalanceWei
  · rw [if_pos hb]
    refine ⟨[Act.balanceQuery w.address], rfl, ?_⟩
    intro a ha
    rw [List.mem_singleton] at ha
    subst ha
    exact ⟨by simp, by simp⟩
  · rw [if_neg hb]
    by_cases hd : env.deploySucceeds = true
    · by_cases hc : env.confirmSucceeds = true
      · rw [if_pos hd, if_pos hc]
        refine ⟨[Act.balanceQuery w.address,
          Act.submitDeploy name symbol initialSupplyWei, Act.confirmWait], rfl, ?_⟩
        intro a ha
        simp only [List.mem_cons, List.not_mem_nil, or_false] at ha
        rcases ha with ha | ha | ha <;> subst ha <;> exact ⟨by simp, by simp⟩
      · rw [if_pos hd, if_neg hc]
        refine ⟨[Act.balanceQuery w.address,
          Act.submitDeploy name symbol initialSupplyWei, Act.confirmWait], rfl, ?_⟩
        intro a ha
        simp only [List.mem_cons, List.not_mem_nil, or_false] at ha
        rcases ha with ha | ha | ha <;> subst ha <;> exact ⟨by simp, by simp⟩
    · rw [if_neg hd]
      refine ⟨[Act.balanceQuery w.address,
        Act.submitDeploy name symbol initialSupplyWei], rfl, ?_⟩
      intro a ha
      simp only [List.mem_cons, List.not_mem_nil, or_false] at ha
      rcases ha with ha | ha <;> subst ha <;> exact ⟨by simp, by simp⟩

/-- The distribution loop's acts contain no compile and no pacing wait. -/
theorem distLoop_acts_clean (draw : Nat → Nat) (txOk : Nat → Bool) :
    ∀ (ts : List String) (i : Nat) (a : Act),
      a ∈ (distLoop draw txOk i ts).snd → a ≠ Act.compile ∧ a ≠ Act.wait 3000 := by
  intro ts
  induction ts with
  | nil => intro i a ha; simp [distLoop] at ha
  | cons t rest ih =>
    intro i a ha
    cases h : txOk i <;> rw [distLoop] at ha <;> simp only [h] at ha
    · simp only [if_neg Bool.false_ne_true] at ha
      rcases List.mem_cons.mp ha with rfl | ha2
      · exact ⟨by simp, by simp⟩
      · exact ih (i + 1) a ha2
    · rcases List.mem_cons.mp ha with rfl | ha2
      · exact ⟨by simp, by simp⟩
      · rcases List.mem_cons.mp ha2 with rfl | ha3
        · exact ⟨by simp, by simp⟩
        · exact ih (i + 1) a ha3

/-- The distribution unit's acts contain no compile and no pacing wait. -/
theorem sendToRandomAddresses_acts_clean (sh : List String) (draw : Nat → Nat)
    (txOk : Nat → Bool) :
    ∀ a ∈ (sendToRandomAddresses sh draw txOk).snd,
      a ≠ Act.compile ∧ a ≠ Act.wait 3000 :=
  fun a ha => distLoop_acts_clean draw txOk (sh.take 7) 0 a ha

/-- One slot's trace leaves the pacing checker cleared: the slot's compile is
answered by its terminal 3000 ms wait. -/
theorem runSlot_paced (cfg : Config) (w : Wallet) (se : SlotEnv) (spec : TokenSpec)
    (rest : List Act) :
    pacedFrom false ((runSlot cfg w se spec).snd ++ rest) = pacedFrom false rest := by
  rcases deployToken_acts_shape cfg se.chain w spec.name spec.symbol with
    ⟨dtail, hshape, hclean⟩
  cases hd : deployToken cfg se.chain w spec.name spec.symbol with
  | mk f dacts =>
    rw [hd] at hshape
    simp only at hshape
    cases f with
    | error e =>
      simp only [runSlot, hd]
      rw [hshape]
      simp only [List.cons_append, List.append_assoc, List.singleton_append,
        List.nil_append]
      rw [pacedFrom_compile]
      simp only [Bool.not_false, Bool.true_and]
      rw [pacedFrom_append_clean dtail hclean true, pacedFrom_wait3000]
    | ok c =>
      simp only [runSlot, hd]
      rw [hshape]
      simp only [List.cons_append, List.append_assoc, List.singleton_append,
        List.nil_append]
      rw [pacedFrom_compile]
      simp only [Bool.not_false, Bool.true_and]
      rw [pacedFrom_append_clean dtail hclean true,
        pacedFrom_append_clean _
          (sendToRandomAddresses_acts_clean se.shuffled se.draw se.txOk) true,
        pacedFrom_wait3000]

/-- The slot loop's whole trace leaves the pacing checker cleared. -/
theorem runSlots_paced (cfg : Config) (w : Wallet) (se : Nat → SlotEnv) :
    ∀ (specs : List TokenSpec) (i : Nat) (rest : List Act),
      pacedFrom false ((runSlots cfg w se i specs).snd ++ rest) = pacedFrom false rest := by
  intro specs
  induction specs with
  | nil => intro i rest; rfl
  | cons spec specs ih =>
    intro i rest
    simp only [runSlots]
    rw [List.append_assoc]
    rw [runSlot_paced cfg w (se i) spec]
    exact ih (i + 1) rest

/-- A full cycle's trace passes the pacing checker. -/
theorem runCycle_paced (cfg : Config) :
    ∀ (ws : List WalletEnv), pacedFrom false (runCycle cfg ws).snd = true := by
  intro ws
  induction ws with
  | nil => rfl
  | cons we rest ih =>
    cases hg : generateUniqueNames we.draws 5 with
    | error e => simp [runCycle, hg, pacedFrom]
    | ok names =>
      cases hrc : runCycle cfg rest with
      | mk f as2 =>
        rw [hrc] at ih
        simp only at ih
        cases f <;>
          · simp only [runCycle, hg, hrc]
            rw [runSlots_paced]
            exact ih

/-- If the checker accepts a trace with the flag set, a pacing wait occurs
before the next compile act. -/
theorem pacedFrom_true_split :
    ∀ (l₂ l₃ : List Act), pacedFrom true (l₂ ++ Act.compile :: l₃) = true →
      Act.wait 3000 ∈ l₂
  | [], l₃, h => by
    rw [List.nil_append, pacedFrom_compile] at h
    simp at h
  | a :: l₂, l₃, h => by
    by_cases h1 : a = Act.compile
    · subst h1
      rw [List.cons_append, pacedFrom_compile] at h
      simp at h
    · by_cases h2 : a = Act.wait 3000
      · subst h2
        exact List.mem_cons_self _ _
      · rw [List.cons_append, pacedFrom_other true a _ h1 h2] at h
        exact List.mem_cons_of_mem a (pacedFrom_true_split l₂ l₃ h)

/-- A trace accepted by the checker has a pacing wait strictly between any two
compile acts. -/
theorem pacedFrom_split :
    ∀ (l₁ : List Act) (b : Bool) (l₂ l₃ : List Act),
      pacedFrom b (l₁ ++ Act.compile :: (l₂ ++ Act.compile :: l₃)) = true →
      Act.wait 3000 ∈ l₂
  | [], b, l₂, l₃, h => by
    rw [List.nil_append, pacedFrom_compile, Bool.and_eq_true] at h
    exact pacedFrom_true_split l₂ l₃ h.2
  | a :: l₁, b, l₂, l₃, h => by
    by_cases h1 : a = Act.compile
    · subst h1
      rw [List.cons_append, pacedFrom_compile, Bool.and_eq_true] at h
      exact pacedFrom_split l₁ true l₂ l₃ h.2
    · by_cases h2 : a = Act.wait 3000
      · subst h2
        rw [List.cons_append, pacedFrom_wait3000] at h
        exact pacedFrom_split l₁ false l₂ l₃ h
      · rw [List.cons_append, pacedFrom_other b a _ h1 h2] at h
        exact pacedFrom_split l₁ b l₂ l₃ h

/-- Claim C9: in any cycle's trace, a 3000 ms pacing wait occurs strictly
between every pair of consecutive deployment attempts (each attempt begins
with its compile act), regardless of whether the attempts succeeded or
failed. -/
theorem cycle_pacing (cfg : Config) (ws : List WalletEnv) (l₁ l₂ l₃ : List Act)
    (h : (runCycle cfg ws).snd = l₁ ++ Act.compile :: (l₂ ++ Act.compile :: l₃)) :
    Act.wait 3000 ∈ l₂ := by
  have hp := runCycle_paced cfg ws
  rw [h] at hp
  exact pacedFrom_split l₁ false l₂ l₃ hp

/-- Concrete instance of claim C9's theorem: a one-wallet cycle with five
failing deployment attempts still interposes the 3000 ms wait between the
first two attempts. -/
theorem cycle_pacing_witness :
    Act.wait 3000 ∈ [Act.balanceQuery "0xWALLET1", Act.wait 3000] :=
  cycle_pacing cfgW [walletEnvOk] []
    [Act.balanceQuery "0xWALLET1", Act.wait 3000]
    [Act.balanceQuery "0xWALLET1", Act.wait 3000,
      Act.compile, Act.balanceQuery "0xWALLET1", Act.wait 3000,
      Act.compile, Act.balanceQuery "0xWALLET1", Act.wait 3000,
      Act.compile, Act.balanceQuery "0xWALLET1", Act.wait 3000]
    (by decide)

/-- Observable effects of the countdown loop: rendering the remaining time and
the 1000 ms sleep between ticks. -/
inductive SchedAct where
  | countdown : Nat → SchedAct
  | sleep : Nat → SchedAct
deriving DecidableEq, Repr

/-- Recognizes a countdown status emission. -/
def SchedAct.isCountdown : SchedAct → Bool
  | .countdown _ => true
  | _ => false

/-- deploy.js lines 193-203: the countdown loop. `clock` is the stream of
successive readings of new Date() taken at the while-condition; while the
reading is before `nextRun` the loop renders the remaining time and sleeps
1000 ms; the first reading at or past `nextRun` exits the loop. Returns the
emitted acts, the exit reading, and the unconsumed rest of the clock stream;
none when the stream runs out while still waiting. -/
def waitUntil (nextRun : Nat) : List Nat → Option (List SchedAct × Nat × List Nat)
  | [] => none
  | t :: ts =>
    if t < nextRun then
      match waitUntil nextRun ts with
      | none => none
      | some (tr, e, r) => some (.countdown (nextRun - t) :: .sleep 1000 :: tr, e, r)
    else
      some ([], t, ts)

/-- deploy.js lines 170-204 at the scheduling level: each cycle records the
reading taken at the top of the outer loop as its start time, the countdown
then waits for the first reading at or past start + 24 h (86400000 ms), and
the following reading becomes the next cycle's start. `fuel` bounds the
number of modelled cycles; the returned list is the successive cycle start
times after the first. -/
def schedulerStarts : Nat → Nat → List Nat → List Nat
  | 0, _, _ => []
  | fuel + 1, s, clock =>
    match waitUntil (s + 86400000) clock with
    | none => []
    | some (_, _, r) =>
      match r with
      | [] => []
      | t :: r2 => t :: schedulerStarts fuel t r2

/-- The countdown loop only exits at a reading at or past its deadline. -/
theorem waitUntil_exit_ge (nextRun : Nat) :
    ∀ (clock : List Nat) (tr : List SchedAct) (e : Nat) (r : List Nat),
      waitUntil nextRun clock = some (tr, e, r) → nextRun ≤ e := by
  intro clock
  induction clock with
  | nil => intro tr e r h; simp [waitUntil] at h
  | cons t ts ih =>
    intro tr e r h
    rw [waitUntil] at h
    by_cases ht : t < nextRun
    · rw [if_pos ht] at h
      cases hw : waitUntil nextRun ts with
      | none => rw [hw] at h; simp at h
      | some v =>
        rw [hw] at h
        cases v with
        | mk tr2 v2 =>
          cases v2 with
          | mk e2 r2 =>
            simp only [Option.some.injEq, Prod.mk.injEq] at h
            rcases h with ⟨_, he, _⟩
            subst he
            exact ih _ _ _ hw
    · rw [if_neg ht] at h
      simp only [Option.some.injEq, Prod.mk.injEq] at h
      rcases h with ⟨_, he, _⟩
      subst he
      exact Nat.le_of_not_lt ht

/-- The countdown loop emits exactly one countdown per clock reading below the
deadline, each followed by a 1000 ms sleep. -/
theorem waitUntil_counts (nextRun : Nat) :
    ∀ (clock : List Nat) (tr : List SchedAct) (e : Nat) (r : List Nat),
      waitUntil nextRun clock = some (tr, e, r) →
      tr.countP SchedAct.isCountdown =
        (clock.takeWhile (fun t => decide (t < nextRun))).length ∧
      tr.countP (fun a => a == SchedAct.sleep 1000) = tr.countP SchedAct.isCountdown := by
  intro clock
  induction clock with
  | nil => intro tr e r h; simp [waitUntil] at h
  | cons t ts ih =>
    intro tr e r h
    rw [waitUntil] at h
    by_cases ht : t < nextRun
    · rw [if_pos ht] at h
      cases hw : waitUntil nextRun ts with
      | none => rw [hw] at h; simp at h
      | some v =>
        rw [hw] at h
        cases v with
        | mk tr2 v2 =>
          cases v2 with
          | mk e2 r2 =>
            simp only [Option.some.injEq, Prod.mk.injEq] at h
            rcases h with ⟨htr, _, _⟩
            subst htr
            rcases ih tr2 e2 r2 hw with ⟨h1, h2⟩
            constructor
            · rw [List.takeWhile_cons_of_pos (by simp [ht])]
              simp [List.countP_cons, SchedAct.isCountdown, h1]
            · simp [List.countP_cons, SchedAct.isCountdown, h2]
    · rw [if_neg ht] at h
      simp only [Option.some.injEq, Prod.mk.injEq] at h
      rcases h with ⟨htr, _, _⟩
      subst htr
      rw [List.takeWhile_cons_of_neg (by simp [ht])]
      simp

/-- Under a monotone clock the unconsumed stream stays monotone and every
later reading is at least the exit reading. -/
theorem waitUntil_rest (nextRun : Nat) :
    ∀ (clock : List Nat), List.Pairwise (· ≤ ·) clock →
      ∀ (tr : List SchedAct) (e : Nat) (r : List Nat),
        waitUntil nextRun clock = some (tr, e, r) →
        List.Pairwise (· ≤ ·) r ∧ ∀ x ∈ r, e ≤ x := by
  intro clock
  induction clock with
  | nil => intro _ tr e r h; simp [waitUntil] at h
  | cons t ts ih =>
    intro hp tr e r h
    rw [List.pairwise_cons] at hp
    rw [waitUntil] at h
    by_cases ht : t < nextRun
    · rw [if_pos ht] at h
      cases hw : waitUntil nextRun ts with
      | none => rw [hw] at h; simp at h
      | some v =>
        rw [hw] at h
        cases v with
        | mk tr2 v2 =>
          cases v2 with
          | mk e2 r2 =>
            simp only [Option.some.injEq, Prod.mk.injEq] at h
            rcases h with ⟨_, he, hr⟩
            subst he
            subst hr
            exact ih hp.2 _ _ _ hw
    · rw [if_neg ht] at h
      simp only [Option.some.injEq, Prod.mk.injEq] at h
      rcases h with ⟨_, he, hr⟩
      subst he
      subst hr
      exact ⟨hp.2, hp.1⟩

/-- Under a monotone clock, every modelled cycle start is at least 24 h after
the preceding one. -/
theorem schedulerStarts_chain :
    ∀ (fuel : Nat) (s : Nat) (clock : List Nat), List.Pairwise (· ≤ ·) clock →
      List.Chain' (fun a b => a + 86400000 ≤ b) (s :: schedulerStarts fuel s clock) := by
  intro fuel
  induction fuel with
  | zero => intro s clock _; simp [schedulerStarts]
  | succ n ih =>
    intro s clock hp
    rw [schedulerStarts]
    cases hw : waitUntil (s + 86400000) clock with
    | none => simp
    | some v =>
      cases v with
      | mk tr v2 =>
        cases v2 with
        | mk e r =>
          cases r with
          | nil => simp
          | cons t r2 =>
            simp only
            rcases waitUntil_rest (s + 86400000) clock hp tr e (t :: r2) hw with ⟨hp2, hge⟩
            rw [List.chain'_cons]
            constructor
            · exact le_trans (waitUntil_exit_ge (s + 86400000) clock tr e (t :: r2) hw)
                (hge t (List.mem_cons_self t r2))
            · rw [List.pairwise_cons] at hp2
              exact ih t r2 hp2.2

/-- Claim C8: the scheduler never re-enters the running state early. Under a
monotone wall clock, consecutive cycle start times produced by
`schedulerStarts` are at least 24 h (86400000 ms) apart — so there is at most
one waiting-to-running transition per 24-hour period — and whenever the
countdown loop exits, the exit reading is at or past cycleStartTime + 24 h,
with exactly one countdown emitted per 1-second tick whose reading was still
below the deadline, each followed by its 1000 ms sleep. -/
theorem scheduler_no_early_restart (clock : List Nat)
    (hm : List.Pairwise (· ≤ ·) clock) (s0 fuel : Nat) :
    List.Chain' (fun a b => a + 86400000 ≤ b)
      (s0 :: schedulerStarts fuel s0 clock) ∧
    ∀ tr e r, waitUntil (s0 + 86400000) clock = some (tr, e, r) →
      s0 + 86400000 ≤ e ∧
      tr.countP SchedAct.isCountdown =
        (clock.takeWhile (fun t => decide (t < s0 + 86400000))).length ∧
      tr.countP (fun a => a == SchedAct.sleep 1000) = tr.countP SchedAct.isCountdown := by
  constructor
  · exact schedulerStarts_chain fuel s0 clock hm
  · intro tr e r h
    rcases waitUntil_counts (s0 + 86400000) clock tr e r h with ⟨h1, h2⟩
    exact ⟨waitUntil_exit_ge (s0 + 86400000) clock tr e r h, h1, h2⟩

/-- Concrete instance of claim C8's theorem: one waiting phase over a
three-reading clock exits exactly at the 24 h mark after one countdown
tick. -/
theorem scheduler_no_early_restart_witness :
    List.Chain' (fun a b => a + 86400000 ≤ b)
      (0 :: schedulerStarts 1 0 [86399000, 86400000, 86400005]) ∧
    (0 + 86400000 ≤ 86400000 ∧
      ([SchedAct.countdown 1000, SchedAct.sleep 1000].countP SchedAct.isCountdown =
        (([86399000, 86400000, 86400005] : List Nat).takeWhile
          (fun t => decide (t < 0 + 86400000))).length ∧
      [SchedAct.countdown 1000, SchedAct.sleep 1000].countP
          (fun a => a == SchedAct.sleep 1000) =
        [SchedAct.countdown 1000, SchedAct.sleep 1000].countP SchedAct.isCountdown)) :=
  ⟨(scheduler_no_early_restart [86399000, 86400000, 86400005] (by decide) 0 1).1,
    (scheduler_no_early_restart [86399000, 86400000, 86400005] (by decide) 0 1).2
      [SchedAct.countdown 1000, SchedAct.sleep 1000] 86400000 [86400005] (by decide)⟩
